import Mathlib

/-
Verification development for EDXNet's template-expression engine
(src/EDXNet/Core/TemplateExpression.h).

Modelling choices:
* C++ `float` values are modelled by the type `FP`: either an exact rational
  (`FP.finite`), positive infinity (`FP.inf`), negative infinity (`FP.neginf`)
  or a quiet NaN (`FP.nan`).  Arithmetic on finite values is exact rational
  arithmetic (IEEE rounding is abstracted away, and there is no signed zero);
  the propagation of infinities and NaN follows IEEE 754, which is what the
  special-value claims are about.
* `TScalarExp<T>` holds its scalar by reference (`const T& val`).  We model
  the referenced memory with an explicit store `Store : Nat → ScalarVal`
  mapping addresses to caller-owned scalar values; a scalar node records the
  address it references.  `ScalarVal` distinguishes an `int`-typed from a
  `float`-typed referent so that the implicit conversion to `float` performed
  by `TScalarExp<T>::Eval` (`return val;` with return type `float`) is
  explicit in the model.
* `TConstantExp` stores its `float val` and `Array<int> shape` members by
  value, so the corresponding constructor carries the value and the shape
  directly.
* `Math::Exp`, `Math::Sqrt` and `Math::Log` live outside this repository;
  their finite in-domain values are supplied by a `MathLib` record, while
  their IEEE domain behaviour (NaN on negative inputs for sqrt/log, -inf at
  log 0) is fixed in the functor definitions, following the spec.
* `BroadcastShape` also lives outside this file; it is modelled from the
  spec (trailing-axis alignment, left-padding with 1, larger size wins when
  the sizes match or either is 1, failure otherwise), returning `Option`.
-/

namespace EDXNet

/-- Model of a C++ `float` value: exact finite rational, or an IEEE special
value (positive/negative infinity or NaN). -/
inductive FP where
  | finite (q : ℚ)
  | inf
  | neginf
  | nan
deriving DecidableEq

/-- IEEE-style negation on modelled floats. -/
def FP.neg : FP → FP
  | .finite q => .finite (-q)
  | .inf => .neginf
  | .neginf => .inf
  | .nan => .nan

/-- IEEE-style addition on modelled floats (finite arithmetic exact). -/
def FP.add : FP → FP → FP
  | .nan, _ => .nan
  | _, .nan => .nan
  | .inf, .neginf => .nan
  | .neginf, .inf => .nan
  | .inf, _ => .inf
  | _, .inf => .inf
  | .neginf, _ => .neginf
  | _, .neginf => .neginf
  | .finite a, .finite b => .finite (a + b)

/-- IEEE-style subtraction on modelled floats. -/
def FP.sub (a b : FP) : FP := FP.add a (FP.neg b)

/-- IEEE-style multiplication on modelled floats (inf · 0 = NaN). -/
def FP.mul : FP → FP → FP
  | .nan, _ => .nan
  | _, .nan => .nan
  | .inf, .inf => .inf
  | .inf, .neginf => .neginf
  | .neginf, .inf => .neginf
  | .neginf, .neginf => .inf
  | .inf, .finite b => if 0 < b then .inf else if b < 0 then .neginf else .nan
  | .finite a, .inf => if 0 < a then .inf else if a < 0 then .neginf else .nan
  | .neginf, .finite b => if 0 < b then .neginf else if b < 0 then .inf else .nan
  | .finite a, .neginf => if 0 < a then .neginf else if a < 0 then .inf else .nan
  | .finite a, .finite b => .finite (a * b)

/-- IEEE-style division on modelled floats: a finite value divided by zero
yields ±infinity (NaN for 0/0); inf/inf is NaN; finite/inf is 0.  There is
no signed zero in the model, so a zero divisor behaves as IEEE +0. -/
def FP.div : FP → FP → FP
  | .nan, _ => .nan
  | _, .nan => .nan
  | .inf, .inf => .nan
  | .inf, .neginf => .nan
  | .neginf, .inf => .nan
  | .neginf, .neginf => .nan
  | .inf, .finite b => if b < 0 then .neginf else .inf
  | .neginf, .finite b => if b < 0 then .inf else .neginf
  | .finite _, .inf => .finite 0
  | .finite _, .neginf => .finite 0
  | .finite a, .finite b =>
      if b = 0 then (if 0 < a then .inf else if a < 0 then .neginf else .nan)
      else .finite (a / b)

/-- A caller-owned scalar that a `TScalarExp<T>` may reference, tagged with
its C++ type (`int` or `float`). -/
inductive ScalarVal where
  | vInt (n : Int)
  | vFloat (q : ℚ)
deriving DecidableEq

/-- The implicit C++ conversion to `float` performed by
`TScalarExp<T>::Eval`'s `return val;`. -/
def ScalarVal.toFloat : ScalarVal → FP
  | .vInt n => .finite (n : ℚ)
  | .vFloat q => .finite q

/-- The memory the scalar nodes reference: addresses to caller-owned
scalars. -/
def Store : Type := Nat → ScalarVal

/-- The external `TensorIndex` coordinate type, an opaque pass-through token
for every node in this file; modelled as a multi-axis position. -/
def TensorIndex : Type := List Nat

/-- Finite in-domain values of the external math library (`Math::Exp`,
`Math::Sqrt`, `Math::Log`); the engine only relies on their IEEE domain
behaviour, which is fixed in the functor definitions below. -/
structure MathLib where
  expFin : ℚ → ℚ
  sqrtFin : ℚ → ℚ
  logFin : ℚ → ℚ

/-- `AddOp::Exec(a, b) = a + b` on floats. -/
def AddOp.Exec (a b : FP) : FP := FP.add a b

/-- `MinusOp::Exec(a, b) = a - b` on floats. -/
def MinusOp.Exec (a b : FP) : FP := FP.sub a b

/-- `MulOp::Exec(a, b) = a * b` on floats. -/
def MulOp.Exec (a b : FP) : FP := FP.mul a b

/-- `DivOp::Exec(a, b) = a / b` on floats: total, no error branch. -/
def DivOp.Exec (a b : FP) : FP := FP.div a b

/-- `ExpOp::Exec(val) = Math::Exp(val)`.  Modelled from the spec: the math
library is external; exp is total, with exp(-inf) = 0 and exp(inf) = inf. -/
def ExpOp.Exec (M : MathLib) : FP → FP
  | .nan => .nan
  | .inf => .inf
  | .neginf => .finite 0
  | .finite q => .finite (M.expFin q)

/-- `SqrtOp::Exec(val) = Math::Sqrt(val)`.  Modelled from the spec: IEEE
domain behaviour, NaN (not an error) on negative inputs. -/
def SqrtOp.Exec (M : MathLib) : FP → FP
  | .nan => .nan
  | .inf => .inf
  | .neginf => .nan
  | .finite q => if q < 0 then .nan else .finite (M.sqrtFin q)

/-- `SquareOp::Exec(val) = Math::Square(val)`.  Modelled from the spec:
squaring, i.e. `val * val` on floats. -/
def SquareOp.Exec (v : FP) : FP := FP.mul v v

/-- `LogOp::Exec(val) = Math::Log(val)`.  Modelled from the spec: IEEE
domain behaviour, NaN on negative inputs, -inf at 0 (not an error). -/
def LogOp.Exec (M : MathLib) : FP → FP
  | .nan => .nan
  | .inf => .inf
  | .neginf => .nan
  | .finite q => if q < 0 then .nan else if q = 0 then .neginf else .finite (M.logFin q)

/-- `ReluOp::Exec(val) = val > 0.0f ? val : 0.0f`.  IEEE comparison with NaN
is false, so NaN maps to 0; inf > 0 holds, so inf maps to itself. -/
def ReluOp.Exec : FP → FP
  | .finite q => if 0 < q then .finite q else .finite 0
  | .inf => .inf
  | .neginf => .finite 0
  | .nan => .finite 0

/-- `AbsOp::Exec(val) = Math::Abs(val)`.  Modelled from the spec: absolute
value with standard IEEE behaviour on specials. -/
def AbsOp.Exec : FP → FP
  | .finite q => .finite |q|
  | .inf => .inf
  | .neginf => .inf
  | .nan => .nan

/-- The four binary operation functors the engine instantiates
`TBinaryExp` with. -/
inductive BinOp where
  | add
  | minus
  | mul
  | div
deriving DecidableEq

/-- Dispatch to the binary functor's `Exec`, as `TBinaryExp<TOp>::Eval`
does through its `TOp` template argument. -/
def BinOp.Exec : BinOp → FP → FP → FP
  | .add => AddOp.Exec
  | .minus => MinusOp.Exec
  | .mul => MulOp.Exec
  | .div => DivOp.Exec

/-- The six unary operation functors the engine instantiates `TUnaryExp`
with. -/
inductive UnOp where
  | exp
  | sqrt
  | square
  | log
  | relu
  | abs
deriving DecidableEq

/-- Dispatch to the unary functor's `Exec`, as `TUnaryExp<TOp>::Eval` does
through its `TOp` template argument. -/
def UnOp.Exec (M : MathLib) : UnOp → FP → FP
  | .exp => ExpOp.Exec M
  | .sqrt => SqrtOp.Exec M
  | .square => SquareOp.Exec
  | .log => LogOp.Exec M
  | .relu => ReluOp.Exec
  | .abs => AbsOp.Exec

/-- Expression trees built from the node types of TemplateExpression.h:
`TScalarExp` (referencing a caller scalar at an address), `TConstantExp`
(value and shape stored by value), `TBinaryExp<TOp>` and `TUnaryExp<TOp>`. -/
inductive TExp where
  | scalarExp (addr : Nat)
  | constantExp (val : ℚ) (shape : List Nat)
  | binaryExp (op : BinOp) (lhs rhs : TExp)
  | unaryExp (op : UnOp) (param : TExp)
deriving DecidableEq

/-- Modelled from the spec: one aligned axis of `BroadcastShape` — the sizes
agree, or either is 1 and the larger wins; otherwise incompatibility. -/
def broadcastDim (a b : Nat) : Option Nat :=
  if a = b then some a else if a = 1 then some b else if b = 1 then some a else none

/-- Modelled from the spec: `BroadcastShape` on reversed shapes (trailing
axis first); a missing axis on either side counts as size 1. -/
def broadcastRev : List Nat → List Nat → Option (List Nat)
  | [], ys => some ys
  | xs, [] => some xs
  | x :: xs, y :: ys =>
      match broadcastDim x y, broadcastRev xs ys with
      | some d, some rest => some (d :: rest)
      | _, _ => none

/-- Modelled from the spec: the external `BroadcastShape(shapeA, shapeB)` —
align from the trailing axis, pad the shorter shape on the left with size-1
axes, take the larger size when the sizes match or either is 1, and signal
incompatibility (`none`) otherwise. -/
def BroadcastShape (a b : List Nat) : Option (List Nat) :=
  (broadcastRev a.reverse b.reverse).map List.reverse

/-- `Eval(i, broadcastIndex)` of every node type: a scalar node returns the
currently referenced value converted to float, a constant node returns its
stored value, `TBinaryExp<TOp>` returns `TOp::Exec(lhs.Eval(i, broadcastIndex),
rhs.Eval(i, broadcastIndex))`, and `TUnaryExp<TOp>` returns
`TOp::Exec(param.Eval(i, broadcastIndex))`. -/
def Eval (M : MathLib) (σ : Store) : TExp → Int → TensorIndex → FP
  | .scalarExp a, _, _ => (σ a).toFloat
  | .constantExp v _, _, _ => .finite v
  | .binaryExp op l r, i, c => op.Exec (Eval M σ l i c) (Eval M σ r i c)
  | .unaryExp op p, i, c => op.Exec M (Eval M σ p i c)

/-- `Shape()` of every node type: `{1}` for a scalar node, the stored shape
for a constant node, `BroadcastShape(lhs.Shape(), rhs.Shape())` for
`TBinaryExp`, and `param.Shape()` for `TUnaryExp`. -/
def Shape : TExp → Option (List Nat)
  | .scalarExp _ => some [1]
  | .constantExp _ sh => some sh
  | .binaryExp _ l r =>
      match Shape l, Shape r with
      | some a, some b => BroadcastShape a b
      | _, _ => none
  | .unaryExp _ p => Shape p

/-- `ElementWiseBinaryOpExpression<TOp>(lhs, rhs)`: builds the
`TBinaryExp<TOp>` node over the two operands. -/
def ElementWiseBinaryOpExpression (op : BinOp) (l r : TExp) : TExp :=
  .binaryExp op l r

/-- `ElementWiseUnaryOpExpression<TOp>(param)`: builds the `TUnaryExp<TOp>`
node over the operand. -/
def ElementWiseUnaryOpExpression (op : UnOp) (p : TExp) : TExp :=
  .unaryExp op p

/-- `operator +`: returns `ElementWiseBinaryOpExpression<AddOp>(lhs, rhs)`. -/
def operatorAdd (l r : TExp) : TExp := ElementWiseBinaryOpExpression .add l r

/-- `operator -`: returns `ElementWiseBinaryOpExpression<MinusOp>(lhs, rhs)`. -/
def operatorMinus (l r : TExp) : TExp := ElementWiseBinaryOpExpression .minus l r

/-- `operator *`: returns `ElementWiseBinaryOpExpression<MulOp>(lhs, rhs)`. -/
def operatorMul (l r : TExp) : TExp := ElementWiseBinaryOpExpression .mul l r

/-- `operator /`: returns `ElementWiseBinaryOpExpression<DivOp>(lhs, rhs)`. -/
def operatorDiv (l r : TExp) : TExp := ElementWiseBinaryOpExpression .div l r

/-- A concrete instantiation of the external math library, used to evaluate
statements at concrete inputs. -/
def dummyMath : MathLib := ⟨fun _ => 0, fun _ => 0, fun _ => 0⟩

/-- Big-step evaluation relation mirroring the recursive calls of `Eval`;
used to state that evaluation is deterministic. -/
inductive EvalR (M : MathLib) (σ : Store) : TExp → Int → TensorIndex → FP → Prop where
  | scalarR (a : Nat) (i : Int) (c : TensorIndex) :
      EvalR M σ (.scalarExp a) i c ((σ a).toFloat)
  | constantR (v : ℚ) (sh : List Nat) (i : Int) (c : TensorIndex) :
      EvalR M σ (.constantExp v sh) i c (.finite v)
  | binaryR (op : BinOp) (l r : TExp) (i : Int) (c : TensorIndex) (vl vr : FP) :
      EvalR M σ l i c vl → EvalR M σ r i c vr →
      EvalR M σ (.binaryExp op l r) i c (op.Exec vl vr)
  | unaryR (op : UnOp) (p : TExp) (i : Int) (c : TensorIndex) (v : FP) :
      EvalR M σ p i c v →
      EvalR M σ (.unaryExp op p) i c (op.Exec M v)

/-- The evaluation relation agrees with the evaluation function. -/
theorem evalR_eq_eval {M : MathLib} {σ : Store} {e : TExp} {i : Int}
    {c : TensorIndex} {v : FP} (h : EvalR M σ e i c v) : Eval M σ e i c = v := by
  induction h with
  | scalarR a i c => rfl
  | constantR v sh i c => rfl
  | binaryR op l r i c vl vr hl hr ihl ihr => simp [Eval, ihl, ihr]
  | unaryR op p i c v hp ihp => simp [Eval, ihp]

/-- IEEE truth value of `val > 0.0f`: false for NaN, true for +inf. -/
def FP.gtZero : FP → Bool
  | .finite q => decide (0 < q)
  | .inf => true
  | .neginf => false
  | .nan => false

/-- C1: for every binary composite node over Add, Subtract, Multiply, Divide
and every flat index and coordinate, `Eval(i, c)` is the functor applied to
`lhs.Eval(i, c)` and `rhs.Eval(i, c)`, with `i` and `c` passed unchanged to
both children; in particular `(A+B).Eval(i) = A.Eval(i) + B.Eval(i)` and
likewise for subtraction, multiplication and division. -/
theorem claim1_binary_eval_applies_functor :
    ∀ (M : MathLib) (σ : Store) (op : BinOp) (l r : TExp) (i : Int) (c : TensorIndex),
      Eval M σ (.binaryExp op l r) i c = op.Exec (Eval M σ l i c) (Eval M σ r i c)
      ∧ Eval M σ (operatorAdd l r) i c = AddOp.Exec (Eval M σ l i c) (Eval M σ r i c)
      ∧ Eval M σ (operatorMinus l r) i c = MinusOp.Exec (Eval M σ l i c) (Eval M σ r i c)
      ∧ Eval M σ (operatorMul l r) i c = MulOp.Exec (Eval M σ l i c) (Eval M σ r i c)
      ∧ Eval M σ (operatorDiv l r) i c = DivOp.Exec (Eval M σ l i c) (Eval M σ r i c) :=
  fun _ _ _ _ _ _ _ => ⟨rfl, rfl, rfl, rfl, rfl⟩

/-- C2: for expressions with broadcast-compatible shapes, the `Shape()` of
their binary composition equals `BroadcastShape(lhs.Shape(), rhs.Shape())`,
recomputed from the children on every call (the node caches nothing). -/
theorem claim2_binary_shape_is_broadcast (op : BinOp) (l r : TExp)
    (sl sr s : List Nat) (hl : Shape l = some sl) (hr : Shape r = some sr)
    (hb : BroadcastShape sl sr = some s) :
    Shape (.binaryExp op l r) = some s
    ∧ Shape (.binaryExp op l r) = BroadcastShape sl sr := by
  constructor
  · simp [Shape, hl, hr, hb]
  · simp [Shape, hl, hr]

/-- C2 witness: a scalar (shape `[1]`) added to a `[3]`-shaped constant has
shape `[3]`. -/
theorem claim2_binary_shape_is_broadcast_witness :
    Shape (.binaryExp .add (.scalarExp 0) (.constantExp 5 [3])) = some [3]
    ∧ Shape (.binaryExp .add (.scalarExp 0) (.constantExp 5 [3]))
        = BroadcastShape [1] [3] :=
  claim2_binary_shape_is_broadcast .add (.scalarExp 0) (.constantExp 5 [3])
    [1] [3] [3] rfl rfl (by decide)

/-- C3: leaf nodes never fail and never read their index arguments —
a scalar node evaluates to the referenced value (converted to float) at
every flat index and coordinate and its shape is exactly `[1]`; a constant
node evaluates to the stored value and returns the constructed shape
verbatim. -/
theorem claim3_leaf_nodes (M : MathLib) (σ : Store) (a : Nat) (v : ℚ)
    (sh : List Nat) (i i2 : Int) (c c2 : TensorIndex) :
    Eval M σ (.scalarExp a) i c = (σ a).toFloat
    ∧ Eval M σ (.scalarExp a) i c = Eval M σ (.scalarExp a) i2 c2
    ∧ Shape (.scalarExp a) = some [1]
    ∧ Eval M σ (.constantExp v sh) i c = .finite v
    ∧ Eval M σ (.constantExp v sh) i c = Eval M σ (.constantExp v sh) i2 c2
    ∧ Shape (.constantExp v sh) = some sh :=
  ⟨rfl, rfl, rfl, rfl, rfl, rfl⟩

/-- C4: every unary composite node has the shape of its wrapped
sub-expression, and evaluates to the unary functor applied to the
sub-expression's value at the unchanged flat index and coordinate. -/
theorem claim4_unary_node (M : MathLib) (σ : Store) (op : UnOp) (p : TExp)
    (i : Int) (c : TensorIndex) :
    Shape (.unaryExp op p) = Shape p
    ∧ Eval M σ (.unaryExp op p) i c = op.Exec M (Eval M σ p i c) :=
  ⟨rfl, rfl⟩

/-- C5: `ReluOp::Exec(x)` is `x` when `x > 0` and `0` otherwise (with the
IEEE comparison, so NaN also maps to 0); the array `[-2, 0, 3]` maps
elementwise through relu to `[0, 0, 3]`, through square to `[4, 0, 9]` and
through abs to `[2, 0, 3]`. -/
theorem claim5_relu_and_unary_examples :
    (∀ x : ℚ, ReluOp.Exec (FP.finite x) = if 0 < x then FP.finite x else FP.finite 0)
    ∧ (∀ x : FP, ReluOp.Exec x = if x.gtZero then x else FP.finite 0)
    ∧ List.map (fun q => ReluOp.Exec (FP.finite q)) [(-2 : ℚ), 0, 3]
        = [FP.finite 0, FP.finite 0, FP.finite 3]
    ∧ List.map (fun q => SquareOp.Exec (FP.finite q)) [(-2 : ℚ), 0, 3]
        = [FP.finite 4, FP.finite 0, FP.finite 9]
    ∧ List.map (fun q => AbsOp.Exec (FP.finite q)) [(-2 : ℚ), 0, 3]
        = [FP.finite 2, FP.finite 0, FP.finite 3] := by
  refine ⟨fun x => rfl, fun x => ?_, ?_, ?_, ?_⟩
  · cases x <;> simp [ReluOp.Exec, FP.gtZero]
  · norm_num [ReluOp.Exec]
  · norm_num [SquareOp.Exec, FP.mul]
  · norm_num [AbsOp.Exec, abs]

/-- C6: each exposed arithmetic operator is a thin wrapper around the single
generic binary-combination operation with the corresponding functor, both
syntactically (the built node is exactly
`ElementWiseBinaryOpExpression<Op>(lhs, rhs)`) and semantically (its `Eval`
is that functor applied to the operands' values). -/
theorem claim6_operators_thin_wrappers (M : MathLib) (σ : Store) (l r : TExp)
    (i : Int) (c : TensorIndex) :
    operatorAdd l r = ElementWiseBinaryOpExpression .add l r
    ∧ operatorMinus l r = ElementWiseBinaryOpExpression .minus l r
    ∧ operatorMul l r = ElementWiseBinaryOpExpression .mul l r
    ∧ operatorDiv l r = ElementWiseBinaryOpExpression .div l r
    ∧ Eval M σ (ElementWiseBinaryOpExpression .add l r) i c
        = AddOp.Exec (Eval M σ l i c) (Eval M σ r i c)
    ∧ Eval M σ (ElementWiseBinaryOpExpression .minus l r) i c
        = MinusOp.Exec (Eval M σ l i c) (Eval M σ r i c)
    ∧ Eval M σ (ElementWiseBinaryOpExpression .mul l r) i c
        = MulOp.Exec (Eval M σ l i c) (Eval M σ r i c)
    ∧ Eval M σ (ElementWiseBinaryOpExpression .div l r) i c
        = DivOp.Exec (Eval M σ l i c) (Eval M σ r i c) :=
  ⟨rfl, rfl, rfl, rfl, rfl, rfl, rfl, rfl⟩

/-- C7: numeric edge cases are never errors — division is total, a finite
value divided by zero yields an IEEE special value (±inf, NaN for 0/0), and
sqrt/log on negative inputs yield NaN, log 0 yields -inf; no functor has an
error branch (every `Exec` is a total function into `FP`). -/
theorem claim7_numeric_edge_cases (M : MathLib) :
    (∀ a : ℚ, DivOp.Exec (FP.finite a) (FP.finite 0)
        = if 0 < a then FP.inf else if a < 0 then FP.neginf else FP.nan)
    ∧ (∀ a : ℚ, 0 < a → DivOp.Exec (FP.finite a) (FP.finite 0) = FP.inf)
    ∧ (∀ q : ℚ, q < 0 → SqrtOp.Exec M (FP.finite q) = FP.nan)
    ∧ (∀ q : ℚ, q < 0 → LogOp.Exec M (FP.finite q) = FP.nan)
    ∧ LogOp.Exec M (FP.finite 0) = FP.neginf := by
  refine ⟨fun a => ?_, fun a ha => ?_, fun q hq => ?_, fun q hq => ?_, ?_⟩
  · simp [DivOp.Exec, FP.div]
  · simp [DivOp.Exec, FP.div, ha]
  · simp [SqrtOp.Exec, hq]
  · simp [LogOp.Exec, hq]
  · norm_num [LogOp.Exec]

/-- C7 witness: the edge cases at concrete inputs. -/
theorem claim7_numeric_edge_cases_witness :
    DivOp.Exec (FP.finite 1) (FP.finite 0) = FP.inf
    ∧ SqrtOp.Exec dummyMath (FP.finite (-1)) = FP.nan
    ∧ LogOp.Exec dummyMath (FP.finite (-1)) = FP.nan :=
  ⟨(claim7_numeric_edge_cases dummyMath).2.1 1 (by norm_num),
   (claim7_numeric_edge_cases dummyMath).2.2.1 (-1) (by norm_num),
   (claim7_numeric_edge_cases dummyMath).2.2.2.1 (-1) (by norm_num)⟩

/-- C8: evaluation is deterministic — any two evaluations of the same tree
at the same flat index and coordinate, over the same store and math library,
produce identical results (the big-step relation is functional; in this
pure embedding neither `Eval` nor `Shape` can mutate node state). -/
theorem claim8_eval_deterministic (M : MathLib) (σ : Store) (e : TExp)
    (i : Int) (c : TensorIndex) (v1 v2 : FP)
    (h1 : EvalR M σ e i c v1) (h2 : EvalR M σ e i c v2) : v1 = v2 :=
  (evalR_eq_eval h1).symm.trans (evalR_eq_eval h2)

/-- A concrete store used to evaluate statements at concrete inputs: every
address holds the float 2. -/
def store2 : Store := fun _ => .vFloat 2

/-- C8 witness: two evaluations of `scalar + constant 1` at flat index 0
agree. -/
theorem claim8_eval_deterministic_witness :
    FP.add (FP.finite 2) (FP.finite 1) = FP.add (FP.finite 2) (FP.finite 1) :=
  claim8_eval_deterministic dummyMath store2
    (.binaryExp .add (.scalarExp 0) (.constantExp 1 [1])) 0 [] _ _
    (EvalR.binaryR .add _ _ 0 [] (FP.finite 2) (FP.finite 1)
      (EvalR.scalarR 0 0 []) (EvalR.constantR 1 [1] 0 []))
    (EvalR.binaryR .add _ _ 0 [] (FP.finite 2) (FP.finite 1)
      (EvalR.scalarR 0 0 []) (EvalR.constantR 1 [1] 0 []))

/-- C9: a constant node copies its value and shape at construction: its
`Eval` and `Shape` depend only on the constructor arguments — in particular
they are unchanged under any modification of the store (the caller-owned
memory) — unlike a scalar node, whose result can change when the referenced
memory changes. -/
theorem claim9_constant_copies :
    (∀ (M M2 : MathLib) (σ σ2 : Store) (v : ℚ) (sh : List Nat)
        (i i2 : Int) (c c2 : TensorIndex),
        Eval M σ (.constantExp v sh) i c = Eval M2 σ2 (.constantExp v sh) i2 c2
        ∧ Eval M σ (.constantExp v sh) i c = FP.finite v
        ∧ Shape (.constantExp v sh) = some sh)
    ∧ (∃ (a : Nat) (σ1 σ2 : Store) (i : Int) (c : TensorIndex),
        Eval dummyMath σ1 (.scalarExp a) i c
          ≠ Eval dummyMath σ2 (.scalarExp a) i c) := by
  refine ⟨fun _ _ _ _ _ _ _ _ _ _ => ⟨rfl, rfl, rfl⟩,
    ⟨0, fun _ => .vFloat 0, fun _ => .vFloat 1, 0, [], ?_⟩⟩
  norm_num [Eval, ScalarVal.toFloat]

/-- C10: all evaluation is carried out in float — a scalar node referencing
an `int`-typed value returns that value converted to float, one referencing
a `float`-typed value returns it unchanged, and every `Exec` and `Eval`
consumes and produces values of the float model `FP`, so the output of any
tree is a float. -/
theorem claim10_eval_in_float (M : MathLib) (σ : Store) (a : Nat) (i : Int)
    (c : TensorIndex) :
    (∀ n : Int, σ a = ScalarVal.vInt n →
        Eval M σ (.scalarExp a) i c = FP.finite (n : ℚ))
    ∧ (∀ q : ℚ, σ a = ScalarVal.vFloat q →
        Eval M σ (.scalarExp a) i c = FP.finite q) := by
  constructor
  · intro n h
    simp [Eval, h, ScalarVal.toFloat]
  · intro q h
    simp [Eval, h, ScalarVal.toFloat]

/-- A concrete store used to evaluate statements at concrete inputs: every
address holds the int 7. -/
def store7 : Store := fun _ => .vInt 7

/-- C10 witness: a scalar node referencing the int 7 evaluates to the
float 7. -/
theorem claim10_eval_in_float_witness :
    Eval dummyMath store7 (.scalarExp 0) 0 [] = FP.finite 7 := by
  have h := (claim10_eval_in_float dummyMath store7 0 0 []).1 7 rfl
  simpa using h

end EDXNet
